import Mathlib

/-!
Shallow embedding of the snmputil package (Go).

Dynamic Go values (`interface{}`) that flow through the sender pipeline are
modelled by the inductive type `GoVal`; Go machine integers are modelled as
`Nat` / `Int` with an explicit `% 2 ^ w` wherever the Go code converts in a
way that can truncate or wrap; Go `error` results become `Option String`
(`none` is the nil error) or `Except String`; Go `float64` arithmetic on
rates is modelled by exact rationals (the only float operations involved
are a division and a strict positivity test, both of which are
sign-faithful in float64 for the magnitudes at hand).
-/

namespace Snmputil

/-- Runtime representations of Go dynamic values that reach the pipeline.
Unsigned payloads are `Nat`, signed payloads are `Int`; a well-formed value
has its payload inside the width of its Go type (see `GoVal.wf`). -/
inductive GoVal where
  | goInt (v : Int)
  | goUint (v : Nat)
  | goInt32 (v : Int)
  | goUint32 (v : Nat)
  | goInt64 (v : Int)
  | goUint64 (v : Nat)
  | goC32 (v : Nat)
  | goC64 (v : Nat)
  | goFloat (q : ℚ)
  | goStr (s : String)
  | goBytes (bs : List Nat)
  deriving DecidableEq

/-- Payload of a value fits the width of its Go runtime type (int and uint
are 64 bits wide on the platforms the package targets). -/
def GoVal.wf : GoVal → Bool
  | .goInt v => decide (-(2 : Int) ^ 63 ≤ v ∧ v < 2 ^ 63)
  | .goUint v => decide (v < 2 ^ 64)
  | .goInt32 v => decide (-(2 : Int) ^ 31 ≤ v ∧ v < 2 ^ 31)
  | .goUint32 v => decide (v < 2 ^ 32)
  | .goInt64 v => decide (-(2 : Int) ^ 63 ≤ v ∧ v < 2 ^ 63)
  | .goUint64 v => decide (v < 2 ^ 64)
  | .goC32 v => decide (v < 2 ^ 32)
  | .goC64 v => decide (v < 2 ^ 64)
  | _ => true

/-- Name of the Go runtime type of a value, as printed by the %T verb. -/
def goTypeName : GoVal → String
  | .goInt _ => "int"
  | .goUint _ => "uint"
  | .goInt32 _ => "int32"
  | .goUint32 _ => "uint32"
  | .goInt64 _ => "int64"
  | .goUint64 _ => "uint64"
  | .goC32 _ => "snmputil.Counter32"
  | .goC64 _ => "snmputil.Counter64"
  | .goFloat _ => "float64"
  | .goStr _ => "string"
  | .goBytes _ => "[]uint8"

/-- Rendering of a dynamic value for error interpolation (the %v verb);
numeric payloads print in decimal.  The exact text of formatted payloads is
immaterial to every claim. -/
def goValShow : GoVal → String
  | .goInt v => toString v
  | .goUint v => toString v
  | .goInt32 v => toString v
  | .goUint32 v => toString v
  | .goInt64 v => toString v
  | .goUint64 v => toString v
  | .goC32 v => toString v
  | .goC64 v => toString v
  | .goFloat q => toString q
  | .goStr s => s
  | .goBytes bs => toString bs

/-- Decides whether an `Except` result is a success. -/
def exceptOk {α : Type} : Except String α → Bool
  | .ok _ => true
  | .error _ => false

/-- Value is one of the six builtin Go integer types accepted by the
`counter` normalization of the Calc stage. -/
def isBuiltinInt : GoVal → Bool
  | .goUint _ => true
  | .goInt _ => true
  | .goUint64 _ => true
  | .goInt64 _ => true
  | .goUint32 _ => true
  | .goInt32 _ => true
  | _ => false

/-- counter (src/senders.go, lines 34-51): normalizes the six builtin Go
integer types to a uint64 counter; every other runtime type is an error.
The Go conversion `uint64(x)` of a signed value reinterprets it
mod `2 ^ 64`, which is `% 2 ^ 64` on the exact integer. -/
def counter : GoVal → Except String Nat
  | .goUint v => .ok v
  | .goInt v => .ok ((v % (2 : Int) ^ 64).toNat)
  | .goUint64 v => .ok v
  | .goInt64 v => .ok ((v % (2 : Int) ^ 64).toNat)
  | .goUint32 v => .ok v
  | .goInt32 v => .ok ((v % (2 : Int) ^ 64).toNat)
  | v => .error ("invalid cooked data type:" ++ goTypeName v ++ " value:" ++ goValShow v ++ "\n")

/-- Recipe (src/senders.go, lines 19-23). -/
structure Recipe where
  rename : String
  orig : Bool
  rate : Bool
  deriving DecidableEq

/-- TimeStamp (src/poller.go, lines 39-41), with both instants as integer
nanoseconds (the resolution of Go time). -/
structure TimeStamp where
  startNs : Int
  stopNs : Int
  deriving DecidableEq

/-- dataPoint (src/senders.go, lines 28-31): last normalized counter value
and the stop instant of its observation. -/
structure DataPoint where
  value : Nat
  whenNs : Int
  deriving DecidableEq

/-- Tag maps and the saved-state map of the Calc stage are Go maps; they are
modelled as association lists with unique keys kept by `upsert`. -/
def upsert {β : Type} : List (String × β) → String → β → List (String × β)
  | [], k, v => [(k, v)]
  | (k0, v0) :: rest, k, v =>
    if k0 == k then (k, v) :: rest else (k0, v0) :: upsert rest k v

/-- Character-level string helpers.  Go indexes and slices strings by byte
while the model works on the character list; the two agree on the ASCII
dotted identifiers and suffixes at hand, and the list operations are
structurally recursive so that concrete instances compute. -/
def strIsPre (p q : String) : Bool :=
  p.toList.isPrefixOf q.toList

/-- Character-level drop, agreeing with Go byte slicing on ASCII input. -/
def strDrop (s : String) (n : Nat) : String :=
  String.mk (s.toList.drop n)

/-- Character-level startsWith, agreeing with strings.HasPrefix on ASCII
input. -/
def strStartsWith (s p : String) : Bool :=
  p.toList.isPrefixOf s.toList

/-- Accumulator pass of `splitDot`. -/
def splitDotAux : List Char → List Char → List String
  | [], acc => [String.mk acc.reverse]
  | c :: rest, acc =>
    if c = '.' then String.mk acc.reverse :: splitDotAux rest []
    else splitDotAux rest (c :: acc)

/-- strings.Split(s, ".") of the Go standard library: the pieces between
dots, with empty pieces preserved and the empty string mapping to one empty
piece. -/
def splitDot (s : String) : List String :=
  splitDotAux s.toList []

/-- One record sent down the pipeline: name, tags, value. -/
structure Emission where
  name : String
  tags : List (String × String)
  value : GoVal
  deriving DecidableEq

/-- Senders are modelled as functions from a record to the nil-or-error
result they return. -/
def SendFn : Type :=
  String → List (String × String) → GoVal → TimeStamp → Option String

/-- Result of applying the Calc stage closure to one sample: the records it
forwarded to the wrapped sender, the error it returns, and the new saved
state. -/
structure CalcOut where
  emitted : List Emission
  result : Option String
  saved : List (String × DataPoint)
  deriving DecidableEq

/-- CalcSender (src/senders.go, lines 65-113): one invocation of the closure
returned by CalcSender, as a pure state transformer.  The wrapped sender is
the abstract `send`.  The float64 test `since > 0` on
`ts.Stop.Sub(prior.when).Seconds()` holds exactly when the nanosecond
difference is positive, and the emitted rate `float64(delta) / since` is
modelled exactly over the rationals. -/
def calcStep (send : SendFn) (cook : List (String × Recipe))
    (saved : List (String × DataPoint)) (name : String)
    (tags : List (String × String)) (value : GoVal) (ts : TimeStamp) : CalcOut :=
  match List.lookup name cook with
  | none => ⟨[⟨name, tags, value⟩], send name tags value ts, saved⟩
  | some recipe =>
    match List.lookup "oid" tags with
    | none => ⟨[], some ("no OID saved for calculation on: " ++ name), saved⟩
    | some oid =>
      match counter value with
      | .error e => ⟨[], some e, saved⟩
      | .ok this =>
        let step1 : List Emission × Option String :=
          match List.lookup oid saved with
          | none => ([], none)
          | some prior =>
            -- Go computes delta on uint64: delta := this, and subtracts
            -- prior.value only under the guard this >= prior.value, so the
            -- subtraction cannot wrap and Nat subtraction is exact.
            let delta := if prior.value ≤ this then this - prior.value else this
            let aka := if 0 < recipe.rename.length then recipe.rename else name
            if recipe.rate then
              let sinceNs := ts.stopNs - prior.whenNs
              if 0 < sinceNs then
                let rate : ℚ := (delta : ℚ) / ((sinceNs : ℚ) / 1000000000)
                ([⟨aka, tags, .goFloat rate⟩], send aka tags (.goFloat rate) ts)
              else ([], none)
            else
              ([⟨aka, tags, .goUint64 delta⟩], send aka tags (.goUint64 delta) ts)
        let saved2 := upsert saved oid ⟨this, ts.stopNs⟩
        if recipe.orig then
          ⟨step1.1 ++ [⟨name, tags, value⟩], send name tags value ts, saved2⟩
        else
          ⟨step1.1, step1.2, saved2⟩

/-- SplitSender error combination (src/senders.go, lines 188-198).  The
errors.Wrap of the pkg/errors library produces the message of its second
argument, a colon and a space, then the message of the wrapped error. -/
def splitCombine (err1 err2 : Option String) : Option String :=
  match err1, err2 with
  | some m1, some m2 => some (m2 ++ ": " ++ m1)
  | some m1, none => some m1
  | none, e2 => e2

/-- SplitSender (src/senders.go, lines 184-199): the fan-out sender built
from two wrapped senders (the nil-sender check of the constructor is not
part of the per-sample behaviour). -/
def splitSender (s1 s2 : SendFn) : SendFn :=
  fun name tags value ts =>
    splitCombine (s1 name tags value ts) (s2 name tags value ts)

/-- Filter loop shared by regexpFilter and the earlier inline RegexpSender
(src/unnamed/part_001, lines 175-191): walks the compiled patterns with the
two early exits of the Go loop; the result is true when the sample must be
dropped. -/
def filterLoop (keep : Bool) (name : String) : List (String → Bool) → Bool
  | [] => keep
  | r :: rest => if r name then !keep else filterLoop keep name rest

/-- Modelled from the spec: regexpFilter is called by RegexpSender
(src/senders.go, line 142) and by bulkColumns (src/poller.go, line 69) but
its definition is not among the provided sources.  It follows the words of
spec section 4.5 and the identical inline filter of the earlier
RegexpSender (src/unnamed/part_001): keep=true drops names matching no
pattern, keep=false drops names matching some pattern.  A compiled regular
expression is abstracted to its matching predicate on names. -/
def regexpFilter (patterns : List (String → Bool)) (keep : Bool)
    (name : String) : Bool :=
  filterLoop keep name patterns

/-- RegexpSender (src/senders.go, lines 141-154): returns nil without
forwarding when the filter fires, otherwise forwards to the wrapped
sender. -/
def regexpSender (send : SendFn) (patterns : List (String → Bool))
    (keep : Bool) : SendFn :=
  fun name tags value ts =>
    if regexpFilter patterns keep name then none else send name tags value ts

/-- Poller delay adjustment (src/poller.go, lines 393-407): one pass of the
adaptive check at the top of the polling loop.  `mean` is the trailing
average cycle latency in whole seconds, `delay` the current tick period,
`freq` the configured Criteria.Freq.  All three are nonnegative in any run
(latencies are measured durations), so they are modelled as `Nat`: Go
truncating division agrees with `Nat` division on nonnegative values, and
the Go comparison `mean < delay-60` is false whenever `delay - 60 ≤ 0`,
exactly as with truncated `Nat` subtraction. -/
def pollStep (freq delay mean : Nat) : Nat :=
  if delay < mean then (mean / 60 + 1) * 60
  else if mean < delay - 60 ∧ freq < delay then delay - 60
  else delay

/-- Delays reachable in one Poller session (src/poller.go, lines 373-431):
the delay starts at the configured frequency and is updated once per cycle
by `pollStep` under some observed trailing average latency. -/
inductive PollReach (freq : Nat) : Nat → Prop
  | base : PollReach freq freq
  | step (d m : Nat) : PollReach freq d → PollReach freq (pollStep freq d m)

/-- Greatest lower bound actually maintained by the adaptive delay: the
configured frequency itself when it is at most one minute, and otherwise
its whole-minute floor. -/
def pollFloor (freq : Nat) : Nat :=
  if freq ≤ 60 then freq else 60 * (freq / 60)

/-- Digit run to its numeric value. -/
def digitsToNat (ds : List Char) : Nat :=
  ds.foldl (fun acc c => acc * 10 + (c.toNat - 48)) 0

/-- Atoi models strconv.Atoi as used with a discarded error
(src/util.go, lines 52 and 63): an optional sign followed by one or more
digits parses to its value, anything else leaves the zero value.  Go clamps
results beyond int64; the suffixes at hand hold only small integers, so the
model keeps exact integers. -/
def atoi (s : String) : Int :=
  match s.toList with
  | [] => 0
  | '+' :: rest =>
    if rest ≠ [] ∧ rest.all Char.isDigit then (digitsToNat rest : Int) else 0
  | '-' :: rest =>
    if rest ≠ [] ∧ rest.all Char.isDigit then -(digitsToNat rest : Int) else 0
  | cs => if cs.all Char.isDigit then (digitsToNat cs : Int) else 0

/-- makeString (src/util.go, lines 49-56): each piece is parsed with Atoi
(zero on a parse error), truncated to a byte by the Go conversion
`byte(n)`, and the byte sequence is turned into a printable string by
cleanString.  cleanString decodes UTF-8 and filters by the Go Unicode
printability tables, which are external data; it is therefore passed as an
abstract parameter `clean`, and every theorem below holds for all of its
instantiations. -/
def makeString (clean : List Nat → String) (bits : List String) : String :=
  clean (bits.map (fun bit => (atoi bit % 256).toNat))

/-- Loop of oidStrings (src/util.go, lines 62-73) at index `i`.  The Go
break condition `i > len(bits) || i >= end` with `end = i+cnt+1` can only
fire through `cnt < 0` while the loop guard `i < len(bits)` holds; a count
running past the end is clamped to the end, after which the loop exits
because the index has moved past the length.  Indexing is by rune, which
coincides with Go byte indexing on these ASCII strings. -/
def oidLoop (clean : List Nat → String) (bits : List String) (i : Nat) :
    List String :=
  if h : i < bits.length then
    let cnt := atoi (bits.get ⟨i, h⟩)
    if cnt < 0 then []
    else
      let n := cnt.toNat
      let e := min (i + n + 1) bits.length
      makeString clean ((bits.drop (i + 1)).take (e - (i + 1))) ::
        oidLoop clean bits (i + n + 1)
  else []
termination_by bits.length - i

/-- oidStrings (src/util.go, lines 59-75): decomposes a dotted index suffix
into words. -/
def oidStrings (clean : List Nat → String) (s : String) : List String :=
  oidLoop clean (splitDot s) 0

/-- Specification-level decomposition of a suffix (spec section 4.1): the
head integer is a length prefixing the following that many octets, which
are decoded as one word; the word is truncated at the end of the sequence,
after which everything is consumed and decomposition stops; a negative
length stops decomposition at once. -/
def decompWords (clean : List Nat → String) : List String → List String
  | [] => []
  | b :: rest =>
    let n := atoi b
    if n < 0 then []
    else
      makeString clean (rest.take n.toNat) ::
        decompWords clean (rest.drop n.toNat)
termination_by l => l.length
decreasing_by
  simp only [List.length_drop, List.length_cons]
  omega

/-- Protocol value types distinguished by pduType (src/util.go): the listed
ones plus a default for everything else. -/
inductive SnmpType where
  | integer
  | gauge32
  | timeTicks
  | uinteger32
  | ipAddress
  | objectID
  | c32
  | c64
  | octets
  | unknown
  deriving DecidableEq

/-- One returned identifier/value pair. -/
structure Pdu where
  name : String
  type : SnmpType
  value : GoVal
  deriving DecidableEq

/-- Representations accepted by the Counter32 branch of pduType. -/
def isC32Rep : GoVal → Bool
  | .goUint32 _ => true
  | .goInt32 _ => true
  | .goUint _ => true
  | .goInt _ => true
  | _ => false

/-- pduType (src/util.go, lines 90-139): verifies and normalizes the pdu
data.  Go conversions to the Counter32 and Counter64 defined types keep the
low 32 respectively 64 bits of the exact value.  The octet-string branch
cleans the bytes and opportunistically reinterprets them as a float or
integer; that step depends on the Go Unicode tables and float parsing, so
it is abstracted as the parameter `sniff` (no counter claim depends on it).
The Go code asserts the octet-string payload to be a byte slice and would
panic otherwise; the model returns an error on that unreachable shape. -/
def pduType (sniff : List Nat → GoVal) (pdu : Pdu) : Except String GoVal :=
  match pdu.type with
  | .integer => .ok pdu.value
  | .gauge32 => .ok pdu.value
  | .timeTicks => .ok pdu.value
  | .uinteger32 => .ok pdu.value
  | .ipAddress => .ok pdu.value
  | .objectID => .ok pdu.value
  | .c32 =>
    match pdu.value with
    | .goUint32 v => .ok (.goC32 v)
    | .goInt32 v => .ok (.goC32 ((v % (2 : Int) ^ 32).toNat))
    | .goUint v => .ok (.goC32 (v % 2 ^ 32))
    | .goInt v => .ok (.goC32 ((v % (2 : Int) ^ 32).toNat))
    | v =>
      .error ("invalid counter32 type:" ++ goTypeName v ++ " pdu.Value:" ++
        goValShow v ++ "\n")
  | .c64 =>
    match pdu.value with
    | .goUint v => .ok (.goC64 v)
    | .goInt v => .ok (.goC64 ((v % (2 : Int) ^ 64).toNat))
    | .goUint64 v => .ok (.goC64 v)
    | .goInt64 v => .ok (.goC64 ((v % (2 : Int) ^ 64).toNat))
    | .goUint32 v => .ok (.goC64 v)
    | .goInt32 v => .ok (.goC64 ((v % (2 : Int) ^ 64).toNat))
    | v =>
      .error ("invalid counter64 type:" ++ goTypeName v ++ " pdu.Value:" ++
        goValShow v ++ "\n")
  | .octets =>
    match pdu.value with
    | .goBytes bs => .ok (sniff bs)
    | v => .error ("interface conversion to []uint8 of " ++ goTypeName v)
  | .unknown =>
    .error ("unsupported type (" ++ goTypeName pdu.value ++ "), pdu.Value: " ++
      goValShow pdu.value ++ "\n")

/-- Longest-prefix lookup of the radix tree (rtree.Root().LongestPrefix):
among the stored keys that are a string prefix of the query, the longest
one together with its stored value.  Keys in the tree are unique. -/
def longestMatch (entries : List (String × String)) (q : String) :
    Option (String × String) :=
  entries.foldl
    (fun best e =>
      if strIsPre e.1 q then
        match best with
        | none => some e
        | some b => if b.1.length < e.1.length then some e else some b
      else best)
    none

/-- Adds a tag only when the looked-up value exists and is nonempty,
mirroring the pattern `if v, ok := m[suffix]; ok && len(v) > 0`. -/
def tagIf (t : List (String × String)) (k : String) (v : Option String) :
    List (String × String) :=
  match v with
  | some s => if 0 < s.length then upsert t k s else t
  | none => t

/-- Merge of one tag map into another, as the Go loop
`for k, v := range src { t[k] = v }`. -/
def mergeTags (t : List (String × String)) (src : List (String × String)) :
    List (String × String) :=
  src.foldl (fun acc p => upsert acc p.1 p.2) t

/-- oidInfo (src/unnamed/part_005, lines 37-41): table entry holding the
per-type decoder used by the walk handler. -/
structure OidInfo where
  infoName : String
  infoIndex : Nat
  fn : Pdu → Except String GoVal

/-- Closure environment of the walk handler returned by bulkColumns
(src/poller.go, lines 68-300): the identifier table, the decoder table, the
compiled filter inputs, the criteria fields it reads, and the column
metadata maps current at the time of the call. -/
structure WalkEnv where
  rtree : List (String × String)
  oidBase : List (String × OidInfo)
  regexps : List (String → Bool)
  keep : Bool
  renameMap : List (String × String)
  critTags : List (String × String)
  critIndex : String
  critSuffix : Bool
  critOIDTag : Bool
  columns : List (String × String)
  aliases : List (String × String)
  descrs : List (String × String)
  suffixes : List (String × String)
  enabled : List (String × Bool)
  clean : List Nat → String

/-- pduTags (src/poller.go, lines 181-231): builds the tag set for a
resolved sample; `none` suppresses the sample (an interface-namespace name
whose suffix is absent from the enabled map). -/
def pduTags (env : WalkEnv) (name sfx : String) :
    Option (List (String × String)) :=
  let ifCase := strStartsWith name "if" && decide (0 < sfx.length)
  if ifCase && (List.lookup sfx env.enabled).isNone then none
  else
    let t1 :=
      if ifCase then
        tagIf
          (tagIf (tagIf [] "column" (List.lookup sfx env.columns)) "alias"
            (List.lookup sfx env.aliases))
          "descr" (List.lookup sfx env.descrs)
      else []
    let t2 :=
      if 0 < env.critIndex.length ∧ 0 < sfx.length then
        tagIf t1 "index" (List.lookup sfx env.suffixes)
      else t1
    let t3 :=
      if env.critSuffix then upsert t2 "suffix" sfx
      else
        let group := oidStrings env.clean sfx
        let a :=
          if 0 < group.length ∧ 0 < (group.get! 0).length then
            upsert t2 "grouping" (group.get! 0)
          else t2
        let b :=
          if 1 < group.length ∧ 0 < (group.get! 1).length then
            upsert a "member" (group.get! 1)
          else a
        if 3 < group.length ∧ 0 < (group.get! 1).length then
          upsert b "element" (group.get! 2)
        else b
    some (mergeTags t3 env.critTags)

/-- Observable behaviour of one walk handler call: the records it forwarded
to the sender, the lines it logged, and the error it returned (`none` is a
nil return, letting the walk continue). -/
structure WalkEffect where
  emitted : List Emission
  logged : List String
  result : Option String
  deriving DecidableEq

/-- Walk handler returned by bulkColumns (src/poller.go, lines 257-300), as
a function of the closure environment and the abstract terminal sender.
The timing bookkeeping of `started` only produces the TimeStamp handed to
the sender and feeds the latency statistics, so the handler receives the
TimeStamp directly.  An identifier without a registered ancestor is sent
along raw with only the static criteria tags; a matched prefix without a
decoder table entry is a returned error; a name dropped by the filter, a
suppressed interface, and a value whose decoder fails are nil returns. -/
def bulkHandler (env : WalkEnv) (send : SendFn) (ts : TimeStamp) (pdu : Pdu) :
    WalkEffect :=
  match longestMatch env.rtree pdu.name with
  | none =>
    let t := mergeTags [] env.critTags
    ⟨[⟨pdu.name, t, pdu.value⟩], [], send pdu.name t pdu.value ts⟩
  | some (subOID, rawName) =>
    match List.lookup subOID env.oidBase with
    | none => ⟨[], [], some ("cannot find info for OID: " ++ subOID)⟩
    | some oInfo =>
      if regexpFilter env.regexps env.keep rawName then ⟨[], [], none⟩
      else
        let name :=
          match List.lookup rawName env.renameMap with
          | some rn => rn
          | none => rawName
        let sfx :=
          if subOID.length < pdu.name.length then
            strDrop pdu.name (subOID.length + 1)
          else ""
        match pduTags env name sfx with
        | none => ⟨[], [], none⟩
        | some t =>
          let t2 := if env.critOIDTag then upsert t "oid" pdu.name else t
          match oInfo.fn pdu with
          | .error e =>
            ⟨[], ["bad bulk name:" ++ name ++ " error:" ++ e], none⟩
          | .ok value => ⟨[⟨name, t2, value⟩], [], send name t2 value ts⟩

/-- bulkWalker loop over returned pdus (src/poller.go, lines 317-322):
applies the handler to each pdu in order and stops at the first returned
error, which becomes the result of the whole walk (it is what the Poller
then passes to the error callback). -/
def walkAll (h : Pdu → WalkEffect) :
    List Pdu → List Emission × List String × Option String
  | [] => ([], [], none)
  | p :: rest =>
    let e := h p
    match e.result with
    | some err => (e.emitted, e.logged, some err)
    | none =>
      let w := walkAll h rest
      (e.emitted ++ w.1, e.logged ++ w.2.1, w.2.2)

/-- Helper: the filter loop fires exactly by the polarity of `keep` against
the existence of a matching pattern. -/
theorem filterLoop_eq (keep : Bool) (name : String)
    (l : List (String → Bool)) :
    filterLoop keep name l = if l.any (fun r => r name) then !keep else keep := by
  induction l with
  | nil => simp [filterLoop]
  | cons r rest ih =>
    cases h : r name <;> simp [filterLoop, h, ih]

/-- C1 counterexample: with a failing first branch and a succeeding second
branch the fan-out sender returns the first error rather than nil, so it is
not the case that it returns nil whenever at least one wrapped sender
returns nil on the sample. -/
theorem c1_counterexample :
    splitSender (fun _ _ _ _ => some "boom") (fun _ _ _ _ => none) "x" []
        (.goInt 0) ⟨0, 0⟩ = some "boom" ∧
      (some "boom" : Option String) ≠ none :=
  ⟨rfl, by simp⟩

/-- C1 (amended): the fan-out sender returns nil exactly when both wrapped
senders return nil on the sample; when both return an error it returns an
error combining both messages; when exactly one fails it returns that
error unchanged. -/
theorem c1_split_errors (s1 s2 : SendFn) (name : String)
    (tags : List (String × String)) (value : GoVal) (ts : TimeStamp) :
    (splitSender s1 s2 name tags value ts = none ↔
      s1 name tags value ts = none ∧ s2 name tags value ts = none) ∧
    (∀ m1 m2, s1 name tags value ts = some m1 →
      s2 name tags value ts = some m2 →
      splitSender s1 s2 name tags value ts = some (m2 ++ ": " ++ m1)) ∧
    (s1 name tags value ts = none →
      splitSender s1 s2 name tags value ts = s2 name tags value ts) ∧
    (s2 name tags value ts = none →
      splitSender s1 s2 name tags value ts = s1 name tags value ts) := by
  cases h1 : s1 name tags value ts <;> cases h2 : s2 name tags value ts <;>
    simp [splitSender, splitCombine, h1, h2]

/-- C1 witness: both branches failing at a concrete sample yields the
combined message. -/
theorem c1_split_errors_witness :
    splitSender (fun _ _ _ _ => some "e1") (fun _ _ _ _ => some "e2") "x" []
      (.goInt 0) ⟨0, 0⟩ = some "e2: e1" :=
  (c1_split_errors (fun _ _ _ _ => some "e1") (fun _ _ _ _ => some "e2") "x"
      [] (.goInt 0) ⟨0, 0⟩).2.1 "e1" "e2" rfl rfl

/-- C6: the filter sender forwards exactly when regexpFilter does not fire;
with keep=true that happens exactly when the name matches at least one
pattern (so with zero matches it never forwards), with keep=false exactly
when it matches none (so with zero matches it always forwards). -/
theorem c6_filter_polarity (patterns : List (String → Bool)) (name : String) :
    (∀ (send : SendFn) (keep : Bool) tags value ts,
      regexpSender send patterns keep name tags value ts =
        if regexpFilter patterns keep name then none
        else send name tags value ts) ∧
    (regexpFilter patterns true name = false ↔
      patterns.any (fun r => r name) = true) ∧
    (regexpFilter patterns false name = false ↔
      patterns.any (fun r => r name) = false) := by
  refine ⟨fun send keep tags value ts => rfl, ?_, ?_⟩ <;>
    cases h : patterns.any (fun r => r name) <;>
      simp [regexpFilter, filterLoop_eq, h]

/-- C3 counterexample: with configured frequency 100 the delay is raised to
120 by a trailing average of 110 and then lowered to 60 by a trailing
average of 0, so a reachable delay falls strictly below the configured
frequency. -/
theorem c3_counterexample : PollReach 100 60 ∧ 60 < 100 := by
  refine ⟨?_, by norm_num⟩
  have h1 : PollReach 100 (pollStep 100 100 110) :=
    PollReach.step 100 110 PollReach.base
  have h2 : PollReach 100 (pollStep 100 (pollStep 100 100 110) 0) :=
    PollReach.step _ 0 h1
  have e : pollStep 100 (pollStep 100 100 110) 0 = 60 := by decide
  rwa [e] at h2

/-- Helper invariant of the polling loop: every reachable delay is at least
`pollFloor freq`, and apart from the initial state it is a whole number of
minutes, at least one minute. -/
theorem pollReach_invariant {freq d : Nat} (h : PollReach freq d) :
    pollFloor freq ≤ d ∧ (d = freq ∨ (60 ∣ d ∧ 60 ≤ d)) := by
  induction h with
  | base =>
    refine ⟨?_, Or.inl rfl⟩
    unfold pollFloor
    split
    · exact le_rfl
    · calc 60 * (freq / 60) = freq / 60 * 60 := by ring
        _ ≤ freq := Nat.div_mul_le_self freq 60
  | step d m hd ih =>
    unfold pollStep
    by_cases h1 : d < m
    · rw [if_pos h1]
      have hb : m < (m / 60 + 1) * 60 := by omega
      refine ⟨le_of_lt (lt_of_le_of_lt (le_trans ih.1 (le_of_lt h1)) hb), ?_⟩
      exact Or.inr ⟨dvd_mul_left 60 (m / 60 + 1), by omega⟩
    · rw [if_neg h1]
      by_cases h2 : m < d - 60 ∧ freq < d
      · rw [if_pos h2]
        rcases ih.2 with he | ⟨hdvd, h60⟩
        · omega
        · obtain ⟨k, hk⟩ := hdvd
          have hk2 : 2 ≤ k := by omega
          refine ⟨?_, Or.inr ⟨Nat.dvd_sub' ⟨k, hk⟩ dvd_rfl, by omega⟩⟩
          have hfl := ih.1
          unfold pollFloor at hfl ⊢
          split
          · omega
          · have : freq / 60 < k := by omega
            omega
      · rw [if_neg h2]
        exact ih

/-- C3 (amended): the reachable delay never falls below `pollFloor Freq`
(the frequency itself when it is at most one minute, otherwise its
whole-minute floor, within 59 seconds of the frequency), and whenever the
trailing average exceeds the current delay the delay is raised exactly to
the least whole multiple of 60 seconds strictly above the average. -/
theorem c3_adaptive_delay (freq : Nat) :
    (∀ d, PollReach freq d → pollFloor freq ≤ d) ∧
    (∀ d m, d < m →
      pollStep freq d m = (m / 60 + 1) * 60 ∧
      60 ∣ pollStep freq d m ∧ m < pollStep freq d m ∧
      ∀ j, m < j * 60 → pollStep freq d m ≤ j * 60) := by
  constructor
  · exact fun d h => (pollReach_invariant h).1
  · intro d m h
    have e : pollStep freq d m = (m / 60 + 1) * 60 := by
      unfold pollStep
      rw [if_pos h]
    refine ⟨e, ?_, ?_, ?_⟩
    · rw [e]; exact dvd_mul_left 60 (m / 60 + 1)
    · rw [e]; omega
    · intro j hj; rw [e]; omega

/-- C3 witness: with frequency 100 the delay 120 is reachable and respects
the floor; an average of 130 against delay 120 raises the delay to the next
whole minute 180, which is a multiple of 60 above 130 and at most the
multiple 180. -/
theorem c3_adaptive_delay_witness :
    pollFloor 100 ≤ 120 ∧ pollStep 100 120 130 = (130 / 60 + 1) * 60 ∧
      60 ∣ pollStep 100 120 130 ∧ 130 < pollStep 100 120 130 ∧
      pollStep 100 120 130 ≤ 3 * 60 := by
  have hreach : PollReach 100 120 := by
    have h1 : PollReach 100 (pollStep 100 100 110) :=
      PollReach.step 100 110 PollReach.base
    have e : pollStep 100 100 110 = 120 := by decide
    rwa [e] at h1
  have h2 := (c3_adaptive_delay 100).2 120 130 (by norm_num)
  exact ⟨(c3_adaptive_delay 100).1 120 hreach, h2.1, h2.2.1, h2.2.2.1,
    h2.2.2.2 3 (by norm_num)⟩

/-- Helper: taking clamped at the length takes the same elements. -/
theorem take_clamp {α : Type} (l : List α) (m : Nat) :
    l.take (min m l.length) = l.take m := by
  induction l generalizing m with
  | nil => simp
  | cons a t ih =>
    cases m with
    | zero => simp
    | succ m =>
      simp only [List.length_cons, Nat.succ_min_succ, List.take_succ_cons]
      rw [ih]

/-- Helper: the oidStrings loop from index `i` computes the same words as
the specification-level decomposition of the remaining pieces. -/
theorem oidLoop_eq_decomp (clean : List Nat → String) (bits : List String) :
    ∀ i, oidLoop clean bits i = decompWords clean (bits.drop i) := by
  have H : ∀ fuel i, bits.length - i ≤ fuel →
      oidLoop clean bits i = decompWords clean (bits.drop i) := by
    intro fuel
    induction fuel with
    | zero =>
      intro i hi
      have hge : ¬i < bits.length := by omega
      rw [oidLoop, dif_neg hge, List.drop_eq_nil_of_le (by omega), decompWords]
    | succ fuel ih =>
      intro i hi
      by_cases h : i < bits.length
      · have hdrop : bits.drop i = bits.get ⟨i, h⟩ :: bits.drop (i + 1) :=
          List.drop_eq_getElem_cons h
        rw [oidLoop, dif_pos h, hdrop, decompWords]
        by_cases hneg : atoi (bits.get ⟨i, h⟩) < 0
        · rw [if_pos hneg, if_pos hneg]
        · rw [if_neg hneg, if_neg hneg]
          have htake :
              (bits.drop (i + 1)).take
                  (min (i + (atoi (bits.get ⟨i, h⟩)).toNat + 1) bits.length -
                    (i + 1)) =
                (bits.drop (i + 1)).take (atoi (bits.get ⟨i, h⟩)).toNat := by
            have hlen : (bits.drop (i + 1)).length = bits.length - (i + 1) :=
              List.length_drop (i + 1) bits
            have he :
                min (i + (atoi (bits.get ⟨i, h⟩)).toNat + 1) bits.length -
                    (i + 1) =
                  min (atoi (bits.get ⟨i, h⟩)).toNat
                    ((bits.drop (i + 1)).length) := by
              rw [hlen]; omega
            rw [he, take_clamp]
          dsimp only
          rw [htake, ih (i + (atoi (bits.get ⟨i, h⟩)).toNat + 1) (by omega),
            List.drop_drop]
          have harith :
              i + 1 + (atoi (bits.get ⟨i, h⟩)).toNat =
                i + (atoi (bits.get ⟨i, h⟩)).toNat + 1 := by omega
          rw [harith]
      · rw [oidLoop, dif_neg h, List.drop_eq_nil_of_le (by omega), decompWords]
  exact fun i => H (bits.length - i) i le_rfl

/-- C8: oidStrings realizes the length-prefixed decomposition of the spec:
splitting the suffix on dots, each integer is a length prefix consuming
that many following octets, decoded as one word through makeString, with
the final word truncated at the end of the suffix, after which the prefix
arithmetic has run past the end and decomposition stops.  The property
holds for every instantiation of the octet-cleaning function. -/
theorem c8_suffix_decomposition (clean : List Nat → String) (s : String) :
    oidStrings clean s = decompWords clean (splitDot s) := by
  have h := oidLoop_eq_decomp clean (splitDot s) 0
  simpa [oidStrings] using h

/-- C9 counterexample: a 32-bit counter arriving with an int64 runtime
representation is rejected by pduType with an error instead of being
wrapped as Counter32. -/
theorem c9_counterexample :
    exceptOk (pduType (fun _ => .goStr "") ⟨".1.2", .c32, .goInt64 5⟩) =
      false := rfl

/-- C9 (amended): a 32-bit counter value is wrapped as Counter32 (low 32
bits of the exact value) exactly when its runtime representation is int,
uint, int32 or uint32, and any other representation — including int64 and
uint64 — yields an error; a 64-bit counter value is wrapped as Counter64
(low 64 bits) for all six builtin integer representations, and any other
representation yields an error.  This holds for every instantiation of the
octet-string sniffing function. -/
theorem c9_counter_normalization (sniff : List Nat → GoVal) (nm : String) :
    (∀ val, exceptOk (pduType sniff ⟨nm, .c32, val⟩) = true ↔
      isC32Rep val = true) ∧
    (∀ v : Nat, pduType sniff ⟨nm, .c32, .goUint32 v⟩ = .ok (.goC32 v)) ∧
    (∀ v : Int, pduType sniff ⟨nm, .c32, .goInt32 v⟩ =
      .ok (.goC32 ((v % (2 : Int) ^ 32).toNat))) ∧
    (∀ v : Nat, pduType sniff ⟨nm, .c32, .goUint v⟩ =
      .ok (.goC32 (v % 2 ^ 32))) ∧
    (∀ v : Int, pduType sniff ⟨nm, .c32, .goInt v⟩ =
      .ok (.goC32 ((v % (2 : Int) ^ 32).toNat))) ∧
    (∀ val, exceptOk (pduType sniff ⟨nm, .c64, val⟩) = true ↔
      isBuiltinInt val = true) ∧
    (∀ v : Nat, pduType sniff ⟨nm, .c64, .goUint v⟩ = .ok (.goC64 v)) ∧
    (∀ v : Int, pduType sniff ⟨nm, .c64, .goInt v⟩ =
      .ok (.goC64 ((v % (2 : Int) ^ 64).toNat))) ∧
    (∀ v : Nat, pduType sniff ⟨nm, .c64, .goUint64 v⟩ = .ok (.goC64 v)) ∧
    (∀ v : Int, pduType sniff ⟨nm, .c64, .goInt64 v⟩ =
      .ok (.goC64 ((v % (2 : Int) ^ 64).toNat))) ∧
    (∀ v : Nat, pduType sniff ⟨nm, .c64, .goUint32 v⟩ = .ok (.goC64 v)) ∧
    (∀ v : Int, pduType sniff ⟨nm, .c64, .goInt32 v⟩ =
      .ok (.goC64 ((v % (2 : Int) ^ 64).toNat))) := by
  refine ⟨?_, fun v => rfl, fun v => rfl, fun v => rfl, fun v => rfl, ?_,
    fun v => rfl, fun v => rfl, fun v => rfl, fun v => rfl, fun v => rfl,
    fun v => rfl⟩
  · intro val; cases val <;> simp [pduType, exceptOk, isC32Rep]
  · intro val; cases val <;> simp [pduType, exceptOk, isBuiltinInt]

/-- Helper: a value outside the six builtin integer types makes `counter`
fail. -/
theorem counter_error_of_not_builtin {val : GoVal}
    (h : isBuiltinInt val = false) : ∃ e, counter val = .error e := by
  cases val <;> simp_all [isBuiltinInt, counter]

/-- C10: the counter normalization of the Calc stage accepts exactly the
six builtin Go integer types; the Counter32 and Counter64 wrapper values
that the decoder produces for counters are rejected with an error, and a
recipe-matched sample carrying any non-builtin value is rejected by the
Calc stage with an error: nothing is emitted and the stored state is
unchanged. -/
theorem c10_wrapper_rejection :
    (∀ val, exceptOk (counter val) = true ↔ isBuiltinInt val = true) ∧
    (∀ v : Nat, exceptOk (counter (.goC32 v)) = false) ∧
    (∀ v : Nat, exceptOk (counter (.goC64 v)) = false) ∧
    (∀ (send : SendFn) cook saved name tags ts (recipe : Recipe)
      (oid : String) (val : GoVal),
      List.lookup name cook = some recipe →
      List.lookup "oid" tags = some oid →
      isBuiltinInt val = false →
      (calcStep send cook saved name tags val ts).emitted = [] ∧
      (calcStep send cook saved name tags val ts).result.isSome = true ∧
      (calcStep send cook saved name tags val ts).saved = saved) := by
  refine ⟨?_, fun v => rfl, fun v => rfl, ?_⟩
  · intro val; cases val <;> simp [counter, exceptOk, isBuiltinInt]
  · intro send cook saved name tags ts recipe oid val hr ho hv
    obtain ⟨e, he⟩ := counter_error_of_not_builtin hv
    simp [calcStep, hr, ho, he]

/-- C10 witness: a Counter32-wrapped value reaching a recipe-matched Calc
stage sample is rejected: no emission, an error result, unchanged state. -/
theorem c10_wrapper_rejection_witness :
    (calcStep (fun _ _ _ _ => none) [("ifHCInOctets", ⟨"", false, false⟩)] []
        "ifHCInOctets" [("oid", ".1.6")] (.goC32 5) ⟨0, 0⟩).emitted = [] ∧
      (calcStep (fun _ _ _ _ => none) [("ifHCInOctets", ⟨"", false, false⟩)]
          [] "ifHCInOctets" [("oid", ".1.6")] (.goC32 5)
          ⟨0, 0⟩).result.isSome = true ∧
      (calcStep (fun _ _ _ _ => none) [("ifHCInOctets", ⟨"", false, false⟩)]
          [] "ifHCInOctets" [("oid", ".1.6")] (.goC32 5) ⟨0, 0⟩).saved = [] :=
  c10_wrapper_rejection.2.2.2 (fun _ _ _ _ => none)
    [("ifHCInOctets", ⟨"", false, false⟩)] [] "ifHCInOctets"
    [("oid", ".1.6")] ⟨0, 0⟩ ⟨"", false, false⟩ ".1.6" (.goC32 5) rfl rfl rfl

/-- C4: for a recipe-matched non-rate sample with a stored prior
observation, the value emitted first is the uint64 delta: the exact
arithmetic difference current − previous when the current normalized value
is at least the previous one, and the current normalized value itself when
it is strictly smaller.  The delta is a uint64 (a natural number in the
model), hence never negative, and the guarded subtraction cannot wrap. -/
theorem c4_delta_emission (send : SendFn) (cook : List (String × Recipe))
    (saved : List (String × DataPoint)) (name : String)
    (tags : List (String × String)) (value : GoVal) (ts : TimeStamp)
    (recipe : Recipe) (oid : String) (prior : DataPoint) (cur : Nat)
    (hr : List.lookup name cook = some recipe)
    (hrate : recipe.rate = false)
    (ho : List.lookup "oid" tags = some oid)
    (hc : counter value = .ok cur)
    (hp : List.lookup oid saved = some prior) :
    let aka := if 0 < recipe.rename.length then recipe.rename else name
    let delta := if prior.value ≤ cur then cur - prior.value else cur
    (calcStep send cook saved name tags value ts).emitted.head? =
        some ⟨aka, tags, .goUint64 delta⟩ ∧
      (prior.value ≤ cur → delta + prior.value = cur) ∧
      (cur < prior.value → delta = cur) := by
  refine ⟨?_, ?_, ?_⟩
  · cases horig : recipe.orig <;>
      simp [calcStep, hr, hrate, ho, hc, hp, horig]
  · intro hle
    simp only [if_pos hle]
    omega
  · intro hlt
    have : ¬prior.value ≤ cur := by omega
    simp only [if_neg this]

/-- C4 witness: prior 1000, current 1500 emits delta 500; on a concrete
reset (prior 1000, current 70) the delta is the raw current value 70. -/
theorem c4_delta_emission_witness :
    ((calcStep (fun _ _ _ _ => none) [("c", ⟨"", false, false⟩)]
          [("o", ⟨1000, 0⟩)] "c" [("oid", "o")] (.goUint64 1500)
          ⟨0, 10⟩).emitted.head? =
        some ⟨"c", [("oid", "o")], .goUint64 500⟩ ∧
      500 + 1000 = 1500) ∧
      ((calcStep (fun _ _ _ _ => none) [("c", ⟨"", false, false⟩)]
          [("o", ⟨1000, 0⟩)] "c" [("oid", "o")] (.goUint64 70)
          ⟨0, 10⟩).emitted.head? =
        some ⟨"c", [("oid", "o")], .goUint64 70⟩ ∧ (70 : Nat) = 70) := by
  constructor
  · have h := c4_delta_emission (fun _ _ _ _ => none)
      [("c", ⟨"", false, false⟩)] [("o", ⟨1000, 0⟩)] "c" [("oid", "o")]
      (.goUint64 1500) ⟨0, 10⟩ ⟨"", false, false⟩ "o" ⟨1000, 0⟩ 1500 rfl rfl
      rfl rfl rfl
    exact ⟨by simpa using h.1, h.2.1 (by norm_num)⟩
  · have h := c4_delta_emission (fun _ _ _ _ => none)
      [("c", ⟨"", false, false⟩)] [("o", ⟨1000, 0⟩)] "c" [("oid", "o")]
      (.goUint64 70) ⟨0, 10⟩ ⟨"", false, false⟩ "o" ⟨1000, 0⟩ 70 rfl rfl
      rfl rfl rfl
    exact ⟨by simpa using h.1, h.2.2 (by norm_num)⟩

/-- C5: for a recipe-matched rate sample with a stored prior observation,
the forwarded records are exactly one rate sample when the elapsed time
since the prior observation is strictly positive and none otherwise (plus
the untouched original when the recipe asks for it), and the rate value is
the delta divided by the elapsed seconds. -/
theorem c5_rate_emission (send : SendFn) (cook : List (String × Recipe))
    (saved : List (String × DataPoint)) (name : String)
    (tags : List (String × String)) (value : GoVal) (ts : TimeStamp)
    (recipe : Recipe) (oid : String) (prior : DataPoint) (cur : Nat)
    (hr : List.lookup name cook = some recipe)
    (hrate : recipe.rate = true)
    (ho : List.lookup "oid" tags = some oid)
    (hc : counter value = .ok cur)
    (hp : List.lookup oid saved = some prior) :
    let aka := if 0 < recipe.rename.length then recipe.rename else name
    let delta := if prior.value ≤ cur then cur - prior.value else cur
    let elapsedSec : ℚ := ((ts.stopNs - prior.whenNs : Int) : ℚ) / 1000000000
    (calcStep send cook saved name tags value ts).emitted =
      (if 0 < ts.stopNs - prior.whenNs then
        [⟨aka, tags, .goFloat ((delta : ℚ) / elapsedSec)⟩]
      else []) ++ (if recipe.orig then [⟨name, tags, value⟩] else []) := by
  by_cases hs : 0 < ts.stopNs - prior.whenNs <;>
    cases horig : recipe.orig <;>
      simp [calcStep, hr, hrate, ho, hc, hp, horig, hs]

/-- C5 witness: the spec scenario — prior 1000 at t = 0, current 1500 at
t = 10 s with rename "rate" — emits exactly one record, named rate, of
value 50; with zero elapsed time nothing is emitted. -/
theorem c5_rate_emission_witness :
    (calcStep (fun _ _ _ _ => none) [("octets", ⟨"rate", false, true⟩)]
        [("o", ⟨1000, 0⟩)] "octets" [("oid", "o")] (.goUint64 1500)
        ⟨0, 10000000000⟩).emitted =
      [⟨"rate", [("oid", "o")], .goFloat 50⟩] ∧
    (calcStep (fun _ _ _ _ => none) [("octets", ⟨"rate", false, true⟩)]
        [("o", ⟨1000, 0⟩)] "octets" [("oid", "o")] (.goUint64 1500)
        ⟨0, 0⟩).emitted = [] := by
  constructor
  · have h := c5_rate_emission (fun _ _ _ _ => none)
      [("octets", ⟨"rate", false, true⟩)] [("o", ⟨1000, 0⟩)] "octets"
      [("oid", "o")] (.goUint64 1500) ⟨0, 10000000000⟩
      ⟨"rate", false, true⟩ "o" ⟨1000, 0⟩ 1500 rfl rfl rfl rfl rfl
    rw [h]
    have hlen : 0 < "rate".length := by decide
    have hpos : (0 : Int) < 10000000000 - 0 := by norm_num
    simp only [hlen, hpos, if_pos, if_true, if_false, List.append_nil]
    norm_num
  · have h := c5_rate_emission (fun _ _ _ _ => none)
      [("octets", ⟨"rate", false, true⟩)] [("o", ⟨1000, 0⟩)] "octets"
      [("oid", "o")] (.goUint64 1500) ⟨0, 0⟩
      ⟨"rate", false, true⟩ "o" ⟨1000, 0⟩ 1500 rfl rfl rfl rfl rfl
    rw [h]
    norm_num

/-- Sender that always succeeds, for concrete instantiations. -/
def nilSend : SendFn := fun _ _ _ _ => none

/-- Environment with an empty identifier table and one static tag. -/
def envNoTable : WalkEnv :=
  ⟨[], [], [], false, [], [("host", "h")], "", false, false, [], [], [], [],
    [], fun _ => ""⟩

/-- Environment whose identifier table knows one prefix that has no decoder
entry. -/
def envNoInfo : WalkEnv :=
  ⟨[(".1.3", "sysUpTime")], [], [], false, [], [], "", false, false, [], [],
    [], [], [], fun _ => ""⟩

/-- Environment with one registered prefix whose decoder always fails. -/
def envBadDecode : WalkEnv :=
  ⟨[(".1.3", "sysX")],
    [(".1.3", ⟨"TEST-MIB::sysX", 0, fun _ => .error "bad type"⟩)], [], false,
    [], [], "", true, false, [], [], [], [], [], fun _ => ""⟩

/-- C2 counterexample: on an identifier with no registered ancestor the walk
handler does not abort the cycle: it forwards the raw pair with the static
criteria tags and returns the (nil) sender result instead of an error. -/
theorem c2_counterexample :
    bulkHandler envNoTable nilSend ⟨0, 0⟩ ⟨".1.9.9", .integer, .goInt 7⟩ =
        ⟨[⟨".1.9.9", [("host", "h")], .goInt 7⟩], [], none⟩ ∧
      (bulkHandler envNoTable nilSend ⟨0, 0⟩
          ⟨".1.9.9", .integer, .goInt 7⟩).result = none := ⟨rfl, rfl⟩

/-- C2 (amended): a returned identifier with no registered ancestor in the
identifier table is not an abort — the raw pair is forwarded with only the
static criteria tags and the handler returns the terminal sender result;
the retrieval cycle is aborted with an error, which becomes the result of
the walk that the poller hands to the error callback, exactly in the
nearby failure where an ancestor is matched but has no decoder entry. -/
theorem c2_resolution_behaviour (env : WalkEnv) (send : SendFn)
    (ts : TimeStamp) (pdu : Pdu) :
    (longestMatch env.rtree pdu.name = none →
      bulkHandler env send ts pdu =
        ⟨[⟨pdu.name, mergeTags [] env.critTags, pdu.value⟩], [],
          send pdu.name (mergeTags [] env.critTags) pdu.value ts⟩) ∧
    (∀ subOID rawName,
      longestMatch env.rtree pdu.name = some (subOID, rawName) →
      List.lookup subOID env.oidBase = none →
      bulkHandler env send ts pdu =
          ⟨[], [], some ("cannot find info for OID: " ++ subOID)⟩ ∧
        ∀ rest, (walkAll (bulkHandler env send ts) (pdu :: rest)).2.2 =
          some ("cannot find info for OID: " ++ subOID)) := by
  constructor
  · intro h
    simp [bulkHandler, h]
  · intro subOID rawName hm hb
    have he : bulkHandler env send ts pdu =
        ⟨[], [], some ("cannot find info for OID: " ++ subOID)⟩ := by
      simp [bulkHandler, hm, hb]
    exact ⟨he, fun rest => by simp [walkAll, he]⟩

/-- C2 witness: an unresolved identifier is forwarded raw and a matched
prefix without decoder info aborts the walk with the error that reaches
the error callback. -/
theorem c2_resolution_behaviour_witness :
    bulkHandler envNoTable nilSend ⟨0, 0⟩ ⟨".1.9.9", .integer, .goInt 7⟩ =
        ⟨[⟨".1.9.9", [("host", "h")], .goInt 7⟩], [],
          nilSend ".1.9.9" [("host", "h")] (.goInt 7) ⟨0, 0⟩⟩ ∧
      bulkHandler envNoInfo nilSend ⟨0, 0⟩ ⟨".1.3.6.1", .integer, .goInt 7⟩ =
        ⟨[], [], some "cannot find info for OID: .1.3"⟩ ∧
      (walkAll (bulkHandler envNoInfo nilSend ⟨0, 0⟩)
          [⟨".1.3.6.1", .integer, .goInt 7⟩]).2.2 =
        some "cannot find info for OID: .1.3" := by
  have h1 := (c2_resolution_behaviour envNoTable nilSend ⟨0, 0⟩
    ⟨".1.9.9", .integer, .goInt 7⟩).1 rfl
  have h2 := (c2_resolution_behaviour envNoInfo nilSend ⟨0, 0⟩
    ⟨".1.3.6.1", .integer, .goInt 7⟩).2 ".1.3" "sysUpTime" (by decide)
    (by simp [envNoInfo])
  exact ⟨h1, h2.1, h2.2 []⟩

/-- C7: a returned pair whose identifier resolves (ancestor matched, decoder
entry present, name kept by the filter, sample not suppressed) but whose
value fails to decode is logged and skipped: the handler forwards nothing
for it and returns nil, so a walk over the remaining pdus of the same bulk
result set carries on exactly as without it (same emissions, same final
result), only with the extra log line. -/
theorem c7_decode_error_skips (env : WalkEnv) (send : SendFn)
    (ts : TimeStamp) (pdu : Pdu) (subOID rawName : String) (oInfo : OidInfo)
    (name sfx : String) (t : List (String × String)) (e : String)
    (h1 : longestMatch env.rtree pdu.name = some (subOID, rawName))
    (h2 : List.lookup subOID env.oidBase = some oInfo)
    (h3 : regexpFilter env.regexps env.keep rawName = false)
    (hname : name = (match List.lookup rawName env.renameMap with
      | some rn => rn
      | none => rawName))
    (hsfx : sfx = (if subOID.length < pdu.name.length then
      strDrop pdu.name (subOID.length + 1) else ""))
    (h4 : pduTags env name sfx = some t)
    (h5 : oInfo.fn pdu = .error e) :
    bulkHandler env send ts pdu =
        ⟨[], ["bad bulk name:" ++ name ++ " error:" ++ e], none⟩ ∧
      ∀ rest,
        walkAll (bulkHandler env send ts) (pdu :: rest) =
          ((walkAll (bulkHandler env send ts) rest).1,
            ("bad bulk name:" ++ name ++ " error:" ++ e) ::
              (walkAll (bulkHandler env send ts) rest).2.1,
            (walkAll (bulkHandler env send ts) rest).2.2) := by
  subst hname hsfx
  have he : bulkHandler env send ts pdu =
      ⟨[], ["bad bulk name:" ++
        (match List.lookup rawName env.renameMap with
          | some rn => rn
          | none => rawName) ++ " error:" ++ e], none⟩ := by
    simp [bulkHandler, h1, h2, h3, h4, h5]
  exact ⟨he, fun rest => by simp [walkAll, he]⟩

/-- C7 witness: a pdu whose decoder fails is logged andskipped while a
following pdu with the same failing decoder still gets processed — the walk
result stays nil and both log lines appear. -/
theorem c7_decode_error_skips_witness :
    bulkHandler envBadDecode nilSend ⟨0, 0⟩ ⟨".1.3.6", .integer, .goInt 7⟩ =
        ⟨[], ["bad bulk name:sysX error:bad type"], none⟩ ∧
      walkAll (bulkHandler envBadDecode nilSend ⟨0, 0⟩)
          [⟨".1.3.6", .integer, .goInt 7⟩, ⟨".1.3.7", .integer, .goInt 8⟩] =
        ([], ["bad bulk name:sysX error:bad type",
          "bad bulk name:sysX error:bad type"], none) := by
  have h := c7_decode_error_skips envBadDecode nilSend ⟨0, 0⟩
    ⟨".1.3.6", .integer, .goInt 7⟩ ".1.3" "sysX"
    ⟨"TEST-MIB::sysX", 0, fun _ => .error "bad type"⟩ "sysX" "6"
    [("suffix", "6")] "bad type" (by decide)
    (by simp [envBadDecode, List.lookup]) (by decide) (by decide)
    (by decide) (by decide) rfl
  have h7 := c7_decode_error_skips envBadDecode nilSend ⟨0, 0⟩
    ⟨".1.3.7", .integer, .goInt 8⟩ ".1.3" "sysX"
    ⟨"TEST-MIB::sysX", 0, fun _ => .error "bad type"⟩ "sysX" "7"
    [("suffix", "7")] "bad type" (by decide)
    (by simp [envBadDecode, List.lookup]) (by decide) (by decide)
    (by decide) (by decide) rfl
  refine ⟨by rw [h.1]; decide, ?_⟩
  rw [h.2 [⟨".1.3.7", .integer, .goInt 8⟩], h7.2 []]
  simp [walkAll]

end Snmputil
